import Mathlib

/-!
Shallow embedding of the partial-date engine of `src/bookcat_utils.js`:
`areDateCompsValid`, `isDateValid`, `parseDate`, `getDateCompString`,
`getDateString`, `compareDates`, and the `FT_BETWEEN` branch of
`DateFilterComponent.doesFilterPass`.

JavaScript values reaching the validator can be ordinary numbers, `NaN`
(from `parseInt` on `null` or a non-numeric string), `undefined` (property
access on a non-object), or a date record.  These are modelled by `JSVal`;
truthiness and comparison follow JavaScript semantics at the modelled call
sites.  Strings are handled at the level of their character lists.
-/

namespace Bookcat

/-- JavaScript values that reach the date validator: `undefined`, `NaN`,
an (integral) number, or a date object with `year`/`month`/`day`
properties. -/
inductive JSVal where
  | undefined : JSVal
  | nan : JSVal
  | num : Int → JSVal
  | obj : JSVal → JSVal → JSVal → JSVal
deriving DecidableEq

/-- JavaScript truthiness of a `JSVal`: `undefined` and `NaN` are falsy, a
number is truthy iff nonzero, objects are always truthy. -/
def truthy : JSVal → Bool
  | .undefined => false
  | .nan => false
  | .num n => n != 0
  | .obj _ _ _ => true

/-- Property access `x["year"]`: `undefined` unless `x` is a date object. -/
def jsYear : JSVal → JSVal
  | .obj y _ _ => y
  | _ => .undefined

/-- Property access `x["month"]`: `undefined` unless `x` is a date object. -/
def jsMonth : JSVal → JSVal
  | .obj _ m _ => m
  | _ => .undefined

/-- Property access `x["day"]`: `undefined` unless `x` is a date object. -/
def jsDay : JSVal → JSVal
  | .obj _ _ d => d
  | _ => .undefined

/-- JavaScript `x >= k` for a numeric constant `k`; false when `x` is
`undefined` or `NaN` (JavaScript comparisons involving NaN are false). -/
def jsGe (x : JSVal) (k : Int) : Bool :=
  match x with
  | .num n => k ≤ n
  | _ => false

/-- JavaScript `x <= k` for a numeric constant `k`; false when `x` is
`undefined` or `NaN`. -/
def jsLeK (x : JSVal) (k : Int) : Bool :=
  match x with
  | .num n => n ≤ k
  | _ => false

/-- JavaScript `x <= y` on two values; false unless both are numbers. -/
def jsLe (x y : JSVal) : Bool :=
  match x, y with
  | .num a, .num b => a ≤ b
  | _, _ => false

/-- JavaScript `x == k` for a numeric constant `k`; false when `x` is
`undefined` or `NaN`. -/
def jsEqK (x : JSVal) (k : Int) : Bool :=
  match x with
  | .num n => n == k
  | _ => false

/-- JavaScript `x % k == 0`; false when `x` is `undefined` or `NaN`
(their remainder is NaN).  For integral numbers the JavaScript remainder
agrees with `Int.emod` on the comparison with zero. -/
def jsModZero (x : JSVal) (k : Int) : Bool :=
  match x with
  | .num n => n % k == 0
  | _ => false

/-- Lookup in `STD_MONTH_LENGTHS` for a natural-number key
(bookcat_utils.js:19-33); `undefined` for keys outside 1..12. -/
def stdMonthLengthNat : Nat → JSVal
  | 1 => .num 31
  | 2 => .num 28
  | 3 => .num 31
  | 4 => .num 30
  | 5 => .num 31
  | 6 => .num 30
  | 7 => .num 31
  | 8 => .num 31
  | 9 => .num 30
  | 10 => .num 31
  | 11 => .num 30
  | 12 => .num 31
  | _ => .undefined

/-- JavaScript object lookup `STD_MONTH_LENGTHS[month]`; `undefined` when
the key is not one of 1..12. -/
def stdMonthLength : JSVal → JSVal
  | .num (.ofNat m) => stdMonthLengthNat m
  | _ => .undefined

/-- Embedding of `areDateCompsValid(year, month, day)`
(bookcat_utils.js:64-88), with JavaScript truthiness and comparison
semantics.  `YEAR_MIN = 1`, `MONTH_MIN = 1`, `MONTH_MAX = 12`,
`FEB_LEAP_YEAR_DAYS = 29`. -/
def areDateCompsValid (year month day : JSVal) : Bool :=
  if truthy year then
    let valid := jsGe year 1
    if valid && truthy month then
      let valid := jsGe month 1 && jsLeK month 12
      if valid && truthy day then
        let dayMax :=
          if jsEqK month 2 &&
              (jsModZero year 400 || (jsModZero year 4 && !jsModZero year 100)) then
            JSVal.num 29
          else stdMonthLength month
        jsLe day dayMax
      else valid
    else valid
  else true

/-- Embedding of `isDateValid(date)` (bookcat_utils.js:49-59).  The
function declares a single parameter `date` and reads its
`year`/`month`/`day` properties; a falsy argument leaves `valid = true`. -/
def isDateValid (date : JSVal) : Bool :=
  if truthy date then
    areDateCompsValid (jsYear date) (jsMonth date) (jsDay date)
  else true

/-- Result record of `parseDate`: a date object `{year, month?, day?}` as
built at bookcat_utils.js:114-123. -/
structure PartialDate where
  year : Nat
  month : Option Nat
  day : Option Nat
deriving DecidableEq

/-- Decimal digit character class `[0-9]`, by code point. -/
def isDigitChar (c : Char) : Bool := 48 ≤ c.toNat && c.toNat ≤ 57

/-- Test of `REGEX_YEAR = /^[1-9][0-9]*$/` (bookcat_utils.js:13). -/
def regexYearTest (s : String) : Bool :=
  match s.data with
  | [] => false
  | c :: cs => (49 ≤ c.toNat && c.toNat ≤ 57) && cs.all isDigitChar

/-- Test of `REGEX_MONTH = /^(1[0-2]|0?[1-9])$/` (bookcat_utils.js:14). -/
def regexMonthTest (s : String) : Bool :=
  match s.data with
  | [c] => 49 ≤ c.toNat && c.toNat ≤ 57
  | [c₁, c₂] =>
      (c₁.toNat == 48 && (49 ≤ c₂.toNat && c₂.toNat ≤ 57)) ||
      (c₁.toNat == 49 && (48 ≤ c₂.toNat && c₂.toNat ≤ 50))
  | _ => false

/-- Test of `REGEX_DAY = /^(0?[1-9]|[1-2][0-9]|3[01])$/`
(bookcat_utils.js:15). -/
def regexDayTest (s : String) : Bool :=
  match s.data with
  | [c] => 49 ≤ c.toNat && c.toNat ≤ 57
  | [c₁, c₂] =>
      (c₁.toNat == 48 && (49 ≤ c₂.toNat && c₂.toNat ≤ 57)) ||
      ((49 ≤ c₁.toNat && c₁.toNat ≤ 50) && isDigitChar c₂) ||
      (c₁.toNat == 51 && (48 ≤ c₂.toNat && c₂.toNat ≤ 49))
  | _ => false

/-- Exact numeric value of a list of decimal digit characters. -/
def digitsVal (cs : List Char) : Nat :=
  List.foldl (fun a c => a * 10 + (c.toNat - 48)) 0 cs

/-- Number of binary digits of `n` (0 for 0); the first argument is fuel,
and `n` itself is always sufficient fuel. -/
def bitLenAux : Nat → Nat → Nat
  | 0, _ => 0
  | fuel + 1, n => if n = 0 then 0 else bitLenAux fuel (n / 2) + 1

/-- Number of binary digits of `n`: `2 ^ (bitLen n - 1) ≤ n < 2 ^ bitLen n`
for positive `n`. -/
def bitLen (n : Nat) : Nat := bitLenAux n n

/-- Rounding of a natural number to the nearest integer representable as
an IEEE-754 double (53-bit significand, round half to even), the number
type of the source.  Values below `2 ^ 53` are exact.  The double's
exponent limit (overflow to Infinity near `1.8e308`) is not modelled: it
could only arise from year parts of more than 300 digits, far beyond the
`10 ^ 21` threshold at which formatting already leaves the decimal
regime. -/
def roundDouble (n : Nat) : Nat :=
  if n < 2 ^ 53 then n
  else
    let k := bitLen n - 53
    let q := n / 2 ^ k
    let r := n % 2 ^ k
    let q' := if r < 2 ^ (k - 1) then q
              else if 2 ^ (k - 1) < r then q + 1
              else if q % 2 = 0 then q else q + 1
    q' * 2 ^ k

/-- Value of JavaScript `parseInt` on an all-digit string: the exact
decimal value rounded to the nearest double.  Below `2 ^ 53` this is the
exact value. -/
def jsParseDigits (cs : List Char) : Nat := roundDouble (digitsVal cs)

/-- JavaScript `parseInt(x)` at the modelled call sites: `NaN` on `null`
(an absent part) or a string with no leading digit, else the value of the
longest digit prefix rounded to a double. -/
def jsParseInt (x : Option String) : JSVal :=
  match x with
  | none => .nan
  | some s =>
    let ds := s.data.takeWhile isDigitChar
    if ds.isEmpty then .nan else .num (Int.ofNat (jsParseDigits ds))

/-- Helper for `String.prototype.split` with a one-character separator:
`acc` holds the characters of the current field, reversed. -/
def jsSplitAux (sep : Char) : List Char → List Char → List String
  | [], acc => [⟨acc.reverse⟩]
  | c :: cs, acc =>
    if c = sep then ⟨acc.reverse⟩ :: jsSplitAux sep cs []
    else jsSplitAux sep cs (c :: acc)

/-- JavaScript `s.split(sep)` for a one-character separator string. -/
def jsSplit (sep : Char) (s : String) : List String := jsSplitAux sep s.data []

/-- JavaScript truthiness of an optional string part: `null` and the empty
string are falsy. -/
def strTruthy : Option String → Bool
  | none => false
  | some s => s != ""

/-- Guard `(!part || REGEX.test(part))` of bookcat_utils.js:108-109 for an
optional month/day part. -/
def optPartOk (test : String → Bool) (part : Option String) : Bool :=
  !strTruthy part ||
    (match part with
     | some s => test s
     | none => false)

/-- Component assembly `if (part) { date[comp] = parseInt(part); }` of
bookcat_utils.js:116-122: under the regex guard the part is all digits, so
`parseInt` yields its decimal value. -/
def optPartNum (part : Option String) : Option Nat :=
  match part with
  | some s => if s != "" then some (jsParseDigits s.data) else none
  | none => none

/-- Body of `parseDate` after the split (bookcat_utils.js:103-125), with
the year part and the optional month/day parts obtained by `shift()`.  At
the validation step the source calls
`isDateValid(parseInt(year), parseInt(month), parseInt(day))`;
`isDateValid` declares a single parameter, so the second and third
arguments are ignored and only `parseInt(year)` is passed on. -/
def parseDateParts (year : String) (month day : Option String)
    (validate : Bool) : Option PartialDate :=
  if regexYearTest year && optPartOk regexMonthTest month &&
      optPartOk regexDayTest day then
    if !validate || isDateValid (jsParseInt (some year)) then
      some { year := jsParseDigits year.data
             month := optPartNum month
             day := if strTruthy month then optPartNum day else none }
    else none
  else none

/-- Embedding of `parseDate(dateString, validate = true)`
(bookcat_utils.js:95-129).  The guard
`dateComponents.length > 0 && dateComponents.length <= 3` together with
the `shift()` extractions corresponds to the three retained shapes of the
split (a JavaScript split never yields zero parts). -/
def parseDate (dateString : String) (validate : Bool := true) :
    Option PartialDate :=
  if dateString == "" then none
  else
    match jsSplit '-' dateString with
    | [year] => parseDateParts year none none validate
    | [year, month] => parseDateParts year (some month) none validate
    | [year, month, day] => parseDateParts year (some month) (some day) validate
    | _ => none

/-- JavaScript truthiness of an optional numeric field of a date record:
an absent field (`undefined`) and the number 0 are falsy. -/
def numTruthy : Option Nat → Bool
  | none => false
  | some n => n != 0

/-- Decimal digit character for a value below ten. -/
def digitChar10 (n : Nat) : Char :=
  match n with
  | 0 => '0'
  | 1 => '1'
  | 2 => '2'
  | 3 => '3'
  | 4 => '4'
  | 5 => '5'
  | 6 => '6'
  | 7 => '7'
  | 8 => '8'
  | _ => '9'

/-- Big-endian decimal digits of `n`; the first argument is fuel, and any
fuel at least `n` produces the full digit string. -/
def natDigitsAux : Nat → Nat → List Char
  | 0, _ => []
  | fuel + 1, n =>
    if n = 0 then [] else natDigitsAux fuel (n / 10) ++ [digitChar10 (n % 10)]

/-- Exponential rendering of an integral value of at least `10 ^ 21`,
per ECMA-262 `Number::toString`: one leading digit, a fractional part when
more digits remain after stripping trailing zeros, then `e+` and the
decimal exponent.  For `10 ^ 21` itself this is `"1e+21"`, exactly what
JavaScript prints. -/
def expString (n : Nat) : String :=
  let ds := natDigitsAux n n
  let e := ds.length - 1
  let mantissa := (ds.reverse.dropWhile (fun c => c = '0')).reverse
  (match mantissa with
   | [] => "0"
   | [c] => ⟨[c]⟩
   | c :: rest => ⟨[c]⟩ ++ "." ++ ⟨rest⟩) ++ "e+" ++ ⟨natDigitsAux e e⟩

/-- JavaScript `Number.prototype.toString` (base 10) on a nonnegative
integral double: positional decimal notation below `10 ^ 21`, exponential
notation from `10 ^ 21` on (the ECMA-262 `Number::toString` threshold).
In the positional regime the exact digits of the value are printed;
JavaScript prints the shortest digit string denoting the same double,
which coincides with the exact digits below `2 ^ 53` and is in general a
digit-only numeral that `parseInt` maps back to the same value.  In the
exponential regime the mantissa here is the exact digits without trailing
zeros, which for an exactly representable value such as `10 ^ 21` is the
shortest round-tripping choice ECMA prescribes. -/
def natToString (n : Nat) : String :=
  if n = 0 then "0"
  else if n < 10 ^ 21 then ⟨natDigitsAux n n⟩
  else expString n

/-- Zero-padding `(x < 10 ? "0" : "") + x.toString()` of
bookcat_utils.js:157/161. -/
def pad2 (n : Nat) : String := (if n < 10 then "0" else "") ++ natToString n

/-- Embedding of `getDateCompString(year, month, day)`
(bookcat_utils.js:149-166); `DATE_COMP_SEP = "-"`. -/
def getDateCompString (year : Nat) (month day : Option Nat) : String :=
  if year ≠ 0 then
    natToString year ++
      (if numTruthy month then
        "-" ++ pad2 (month.getD 0) ++
          (if numTruthy day then "-" ++ pad2 (day.getD 0) else "")
      else "")
  else ""

/-- Embedding of `getDateString(date)` (bookcat_utils.js:134-144). -/
def getDateString (date : Option PartialDate) : String :=
  match date with
  | none => ""
  | some d => getDateCompString d.year d.month d.day

/-- Embedding of `compareDates(refDate, compDate)`
(bookcat_utils.js:183-282).  The `!refMonth`/`!refDay` tests are
JavaScript truthiness checks on the record fields. -/
def compareDates (refDate compDate : Option PartialDate) : Int :=
  match refDate, compDate with
  | none, none => 0
  | none, some _ => -1
  | some _, none => 1
  | some r, some c =>
    if r.year < c.year then -1
    else if c.year < r.year then 1
    else if !numTruthy r.month then 0
    else if !numTruthy c.month then 1
    else if r.month.getD 0 < c.month.getD 0 then -1
    else if c.month.getD 0 < r.month.getD 0 then 1
    else if !numTruthy r.day then 0
    else if !numTruthy c.day then 1
    else if r.day.getD 0 < c.day.getD 0 then -1
    else if c.day.getD 0 < r.day.getD 0 then 1
    else 0

/-- The `FT_BETWEEN` branch of `DateFilterComponent.doesFilterPass`
(bookcat_utils.js:981-983):
`pass = (startDateComparison < 0 && endDateComparison > 0)`, where both
comparisons run the partial-date comparator with the boundary as the
reference and the row's date as the candidate. -/
def betweenPass (startDate endDate rowDate : Option PartialDate) : Bool :=
  compareDates startDate rowDate < 0 && compareDates endDate rowDate > 0

/-- Spec-side definition (glossary): a leap year is divisible by 400, or
divisible by 4 and not by 100. -/
def isLeapYear (y : Int) : Prop := y % 400 = 0 ∨ (y % 4 = 0 ∧ y % 100 ≠ 0)

instance (y : Int) : Decidable (isLeapYear y) := by
  unfold isLeapYear; infer_instance

/-- Spec-side definition (section 3): number of days of month `m` of year
`y` in the proleptic Gregorian calendar. -/
def monthLength (y m : Nat) : Nat :=
  if m = 2 then
    (if y % 400 = 0 ∨ (y % 4 = 0 ∧ y % 100 ≠ 0) then 29 else 28)
  else if m = 4 ∨ m = 6 ∨ m = 9 ∨ m = 11 then 30
  else 31

/-- Spec-side definition: a fully specified real calendar date (year at
least 1, month and day present and in range for the leap-aware month
length). -/
def isRealDate (d : PartialDate) : Prop :=
  1 ≤ d.year ∧
    ∃ m dd, d.month = some m ∧ d.day = some dd ∧
      1 ≤ m ∧ m ≤ 12 ∧ 1 ≤ dd ∧ dd ≤ monthLength d.year m

/-- Spec-side definition: chronological order on fully specified dates in
the proleptic Gregorian calendar, which is the lexicographic order on
(year, month, day). -/
def chronoEarlier (a b : PartialDate) : Prop :=
  a.year < b.year ∨
    (a.year = b.year ∧
      (a.month.getD 0 < b.month.getD 0 ∨
        (a.month.getD 0 = b.month.getD 0 ∧ a.day.getD 0 < b.day.getD 0)))

instance (a b : PartialDate) : Decidable (chronoEarlier a b) := by
  unfold chronoEarlier; infer_instance

/-! Helper lemmas about the validator as invoked from `parseDate`. -/

/-- Validation applied to a number always succeeds: `isDateValid` reads the
`year` property of its argument, which is `undefined` on a number, and
`areDateCompsValid` then takes its vacuous branch. -/
lemma isDateValid_num (k : Int) : isDateValid (.num k) = true := by
  simp only [isDateValid, truthy, jsYear, jsMonth, jsDay]
  split <;> rfl

/-- `isDateValid` applied to any `parseInt` result is `true`. -/
lemma isDateValid_jsParseInt (x : Option String) :
    isDateValid (jsParseInt x) = true := by
  rcases x with _ | s
  · rfl
  · simp only [jsParseInt]
    split
    · rfl
    · exact isDateValid_num _

/-- The `validate` flag does not change `parseDateParts`. -/
lemma parseDateParts_validate (y : String) (mo dy : Option String) (v : Bool) :
    parseDateParts y mo dy v = parseDateParts y mo dy true := by
  unfold parseDateParts
  rw [isDateValid_jsParseInt]
  simp

/-! Claim theorems: parser and validator behaviour on concrete inputs. -/

/-- C1: the source's own doc comment promises that, with validation
requested, `parseDate` returns null on a string denoting an invalid
calendar date; instead the non-date `"2019-02-29"` is accepted.  The
validation step passes `parseInt(year)` (a number) to `isDateValid`, whose
property reads on a number yield `undefined`, so validation never fails. -/
theorem parseDate_invalid_date_not_rejected :
    parseDate "2019-02-29" true =
      some { year := 2019, month := some 2, day := some 29 } := by decide

/-- C8: the parser rejects strings whose parts fail the year/month/day
patterns, have more than three parts, or are empty, and on well-formed
input returns exactly the components present in the string. -/
theorem parseDate_pattern_examples :
    parseDate "2020-13-01" true = none ∧
    parseDate "2020-00-10" true = none ∧
    parseDate "2020-1-32" true = none ∧
    parseDate "abcd" true = none ∧
    parseDate "2020-02-03-04" true = none ∧
    parseDate "" true = none ∧
    parseDate "2020" true = some { year := 2020, month := none, day := none } ∧
    parseDate "2020-2" true =
      some { year := 2020, month := some 2, day := none } ∧
    parseDate "2020-02-29" true =
      some { year := 2020, month := some 2, day := some 29 } := by decide

/-- C9: an absent reference sorts before any candidate, an absent
candidate after any reference, and two absent dates compare equal. -/
theorem compareDates_none_cases :
    compareDates none none = 0 ∧
    ∀ d : PartialDate,
      compareDates none (some d) = -1 ∧ compareDates (some d) none = 1 :=
  ⟨rfl, fun _ => ⟨rfl, rfl⟩⟩

/-- C2 counterexample: the row `{year:2020, month:6}`, which the claim
says the between predicate admits, in fact fails it: the year-only lower
boundary `{year:2020}` compares equal (0) to any 2020 row, not strictly
less. -/
theorem betweenPass_2020_row_excluded :
    betweenPass (some { year := 2020, month := none, day := none })
      (some { year := 2021, month := none, day := none })
      (some { year := 2020, month := some 6, day := none }) = false := by decide

/-- C2 amended: with lower boundary `{year:2020}` and upper boundary
`{year:2021}` the between predicate admits none of the four rows: the
2020 rows are "contained" in the lower boundary (comparison 0, not < 0),
and for the other rows one of the two strict comparisons fails. -/
theorem betweenPass_boundaries_2020_2021_admit_none :
    betweenPass (some { year := 2020, month := none, day := none })
      (some { year := 2021, month := none, day := none })
      (some { year := 2019, month := none, day := none }) = false ∧
    betweenPass (some { year := 2020, month := none, day := none })
      (some { year := 2021, month := none, day := none })
      (some { year := 2020, month := some 6, day := none }) = false ∧
    betweenPass (some { year := 2020, month := none, day := none })
      (some { year := 2021, month := none, day := none })
      (some { year := 2020, month := some 6, day := some 15 }) = false ∧
    betweenPass (some { year := 2020, month := none, day := none })
      (some { year := 2021, month := none, day := none })
      (some { year := 2021, month := none, day := none }) = false := by decide

/-- C7 counterexample: for year 0 (which the claim covers, being less
than 1) the validator returns `true`, not `false`: `if (year)` treats the
number 0 as falsy and skips every check. -/
theorem areDateCompsValid_year_zero_true :
    areDateCompsValid (.num 0) (.num 1) (.num 1) = true := by decide

/-- C7 amended: the validator returns `false` for every negative integer
year and any arguments, but returns `true` for year 0 (zero is conflated
with an absent year by the truthiness check and is vacuously valid); it is
a total function over the embedded values. -/
theorem areDateCompsValid_negative_year_false :
    (∀ (y : Int) (m d : JSVal), y < 0 →
      areDateCompsValid (.num y) m d = false) ∧
    ∀ m d : JSVal, areDateCompsValid (.num 0) m d = true := by
  constructor
  · intro y m d hy
    have h1 : truthy (.num y) = true := by
      simp only [truthy, bne_iff_ne, ne_eq, decide_eq_true_eq]; omega
    have h2 : jsGe (.num y) 1 = false := by
      simp only [jsGe, decide_eq_false_iff_not]; omega
    simp [areDateCompsValid, h1, h2]
  · intro m d
    rfl

/-- C7 amended, witness at year -1 and year 0. -/
theorem areDateCompsValid_negative_year_false_witness :
    areDateCompsValid (.num (-1)) (.num 1) (.num 1) = false ∧
    areDateCompsValid (.num 0) (.num 5) (.num 40) = true :=
  ⟨areDateCompsValid_negative_year_false.1 (-1) (.num 1) (.num 1) (by decide),
   areDateCompsValid_negative_year_false.2 (.num 5) (.num 40)⟩

/-- C4: the comparator's equality is directional.  A year-only reference
compares equal to any candidate of the same year, while a reference that
is more specific than the candidate comes after it (+1).  The general
clauses quantify over records whose present month respects the data-model
range (month at least 1). -/
theorem compareDates_directional_equality :
    compareDates (some { year := 2000, month := none, day := none })
      (some { year := 2000, month := some 2, day := some 20 }) = 0 ∧
    compareDates (some { year := 2000, month := some 2, day := some 20 })
      (some { year := 2000, month := none, day := none }) = 1 ∧
    (∀ r c : PartialDate, r.year = c.year → r.month = none →
      compareDates (some r) (some c) = 0) ∧
    ∀ (r c : PartialDate) (m : Nat), r.year = c.year → r.month = some m →
      1 ≤ m → c.month = none → compareDates (some r) (some c) = 1 := by
  refine ⟨by decide, by decide, ?_, ?_⟩
  · intro r c hy hm
    simp [compareDates, hy, hm, numTruthy]
  · intro r c m hy hm h1 hc
    have : (m != 0) = true := by
      simp only [bne_iff_ne, ne_eq, decide_eq_true_eq]; omega
    simp [compareDates, hy, hm, hc, numTruthy, this]

/-- C4 witness: the general clauses applied at concrete records. -/
theorem compareDates_directional_equality_witness :
    compareDates (some { year := 1984, month := none, day := none })
      (some { year := 1984, month := some 5, day := none }) = 0 ∧
    compareDates (some { year := 1984, month := some 5, day := none })
      (some { year := 1984, month := none, day := none }) = 1 :=
  ⟨compareDates_directional_equality.2.2.1 _ _ rfl rfl,
   compareDates_directional_equality.2.2.2 _ _ 5 rfl rfl (by decide) rfl⟩

/-- C10: the `validate` parameter of `parseDate` has no observable effect:
the validation step can never fail, because `isDateValid` receives the
number `parseInt(year)` instead of a date object. -/
theorem parseDate_validate_no_effect :
    ∀ (s : String) (v : Bool), parseDate s v = parseDate s true := by
  intro s v
  unfold parseDate
  split
  · rfl
  · split <;> first | rfl | apply parseDateParts_validate

/-- C6: the validator applies the leap-year rule to February: the five
concrete table entries hold, and in general for positive years a February
day is accepted exactly when it does not exceed 29 in a leap year
(divisible by 400, or by 4 and not by 100) and 28 otherwise. -/
theorem areDateCompsValid_leap_year :
    areDateCompsValid (.num 2000) (.num 2) (.num 29) = true ∧
    areDateCompsValid (.num 1900) (.num 2) (.num 29) = false ∧
    areDateCompsValid (.num 2004) (.num 2) (.num 29) = true ∧
    areDateCompsValid (.num 2001) (.num 2) (.num 29) = false ∧
    areDateCompsValid (.num 2000) (.num 2) (.num 30) = false ∧
    ∀ y d : Int, 1 ≤ y →
      (areDateCompsValid (.num y) (.num 2) (.num d) = true ↔
        d ≤ if isLeapYear y then 29 else 28) := by
  refine ⟨by decide, by decide, by decide, by decide, by decide, ?_⟩
  intro y d hy
  have hty : truthy (.num y) = true := by
    simp only [truthy, bne_iff_ne, ne_eq, decide_eq_true_eq]; omega
  have hgy : jsGe (.num y) 1 = true := by
    simp only [jsGe, decide_eq_true_eq]; omega
  have h28 : stdMonthLength (.num 2) = .num 28 := rfl
  simp only [areDateCompsValid, hty, hgy, truthy, jsGe, jsLeK, jsLe, jsEqK,
    jsModZero, h28, isLeapYear]
  by_cases hd : d = 0
  · subst hd
    simp
    split_ifs <;> omega
  · have htd : ((d != 0) : Bool) = true := by
      simp only [bne_iff_ne, ne_eq, decide_eq_true_eq]; omega
    simp [htd]
    split_ifs <;> simp_all <;> omega

/-- C6 witness: the general leap-year clause applied at year 2000,
day 29. -/
theorem areDateCompsValid_leap_year_witness :
    (1 : Int) ≤ 2000 ∧
      (areDateCompsValid (.num 2000) (.num 2) (.num 29) = true ↔
        (29 : Int) ≤ if isLeapYear 2000 then 29 else 28) :=
  ⟨by decide, areDateCompsValid_leap_year.2.2.2.2.2 2000 29 (by decide)⟩

/-- C5: on distinct fully specified real calendar dates the comparator is
total: exactly one of "less" and "greater" holds, and "less" coincides
with chronological (lexicographic) order in the proleptic Gregorian
calendar; in particular 1999-12-31 compares before 2000-01-01. -/
theorem compareDates_total_on_full_dates :
    (∀ A B : PartialDate, isRealDate A → isRealDate B → A ≠ B →
      Xor' (compareDates (some A) (some B) < 0)
        (compareDates (some A) (some B) > 0) ∧
      (compareDates (some A) (some B) < 0 ↔ chronoEarlier A B)) ∧
    compareDates (some { year := 1999, month := some 12, day := some 31 })
      (some { year := 2000, month := some 1, day := some 1 }) < 0 := by
  constructor
  · rintro ⟨ya, ma, da⟩ ⟨yb, mb, db⟩ ⟨hyA, mA, dA, hmA, hdA, hA1, hA2, hA3, hA4⟩
      ⟨hyB, mB, dB, hmB, hdB, hB1, hB2, hB3, hB4⟩ hne
    simp only at hmA hdA hmB hdB
    subst hmA; subst hdA; subst hmB; subst hdB
    have htA : (mA != 0) = true := by
      simp only [bne_iff_ne, ne_eq, decide_eq_true_eq]; omega
    have htB : (mB != 0) = true := by
      simp only [bne_iff_ne, ne_eq, decide_eq_true_eq]; omega
    have htdA : (dA != 0) = true := by
      simp only [bne_iff_ne, ne_eq, decide_eq_true_eq]; omega
    have htdB : (dB != 0) = true := by
      simp only [bne_iff_ne, ne_eq, decide_eq_true_eq]; omega
    simp only [compareDates, numTruthy, htA, htB, htdA, htdB,
      Option.getD_some, Bool.not_true, Bool.false_eq_true, if_false]
    split_ifs with h1 h2 h3 h4 h5 h6
    · refine ⟨?_, ?_⟩ <;> simp [Xor', chronoEarlier] <;> omega
    · refine ⟨?_, ?_⟩ <;> simp [Xor', chronoEarlier] <;> omega
    · refine ⟨?_, ?_⟩ <;> simp [Xor', chronoEarlier] <;> omega
    · refine ⟨?_, ?_⟩ <;> simp [Xor', chronoEarlier] <;> omega
    · refine ⟨?_, ?_⟩ <;> simp [Xor', chronoEarlier] <;> omega
    · refine ⟨?_, ?_⟩ <;> simp [Xor', chronoEarlier] <;> omega
    · exfalso
      have e1 : ya = yb := by omega
      have e2 : mA = mB := by omega
      have e3 : dA = dB := by omega
      subst e1; subst e2; subst e3
      exact hne rfl
  · decide

/-- C5 witness: the totality clause applied to the concrete pair
1999-12-31 and 2000-01-01. -/
theorem compareDates_total_on_full_dates_witness :
    compareDates (some { year := 1999, month := some 12, day := some 31 })
      (some { year := 2000, month := some 1, day := some 1 }) < 0 :=
  ((compareDates_total_on_full_dates.1 _ _
      ⟨by decide, 12, 31, rfl, rfl, by decide, by decide, by decide, by decide⟩
      ⟨by decide, 1, 1, rfl, rfl, by decide, by decide, by decide, by decide⟩
      (by decide)).2).mpr (by decide)

/-! Lemmas about double rounding, used for the parse/format round trip. -/

lemma bitLenAux_spec :
    ∀ fuel n, 1 ≤ n → n ≤ fuel →
      2 ^ (bitLenAux fuel n - 1) ≤ n ∧ n < 2 ^ bitLenAux fuel n := by
  intro fuel
  induction fuel with
  | zero => intro n h1 h2; omega
  | succ f ih =>
    intro n h1 h2
    have h0 : n ≠ 0 := by omega
    simp only [bitLenAux, if_neg h0]
    by_cases hn : n = 1
    · subst hn
      have : bitLenAux f 0 = 0 := by cases f <;> simp [bitLenAux]
      simp [this]
    · have hd1 : 1 ≤ n / 2 := by omega
      have hd2 : n / 2 ≤ f := by omega
      obtain ⟨hlo, hhi⟩ := ih (n / 2) hd1 hd2
      have hpos : 1 ≤ bitLenAux f (n / 2) := by
        by_contra hb
        have : bitLenAux f (n / 2) = 0 := by omega
        rw [this] at hhi
        simp at hhi
        omega
      constructor
      · have : 2 ^ (bitLenAux f (n / 2) + 1 - 1) =
            2 * 2 ^ (bitLenAux f (n / 2) - 1) := by
          rw [← pow_succ']
          congr 1
          omega
        rw [this]
        omega
      · have : 2 ^ (bitLenAux f (n / 2) + 1) =
            2 * 2 ^ bitLenAux f (n / 2) := by
          rw [← pow_succ']
        rw [this]
        omega

lemma bitLen_spec (n : Nat) (h : 1 ≤ n) :
    2 ^ (bitLen n - 1) ≤ n ∧ n < 2 ^ bitLen n :=
  bitLenAux_spec n n h le_rfl

lemma bitLen_eq (a m : Nat) (h1 : 2 ^ a ≤ m) (h2 : m < 2 ^ (a + 1)) :
    bitLen m = a + 1 := by
  have hm : 1 ≤ m := le_trans (Nat.pow_pos (by norm_num)) h1
  obtain ⟨hlo, hhi⟩ := bitLen_spec m hm
  have hb1 : bitLen m ≤ a + 1 := by
    by_contra hb
    have : a + 1 ≤ bitLen m - 1 := by omega
    have : (2 : Nat) ^ (a + 1) ≤ 2 ^ (bitLen m - 1) :=
      Nat.pow_le_pow_right (by norm_num) this
    omega
  have hb2 : a + 1 ≤ bitLen m := by
    by_contra hb
    have : bitLen m ≤ a := by omega
    have : (2 : Nat) ^ bitLen m ≤ 2 ^ a :=
      Nat.pow_le_pow_right (by norm_num) this
    omega
  omega

lemma roundDouble_small (n : Nat) (h : n < 2 ^ 53) : roundDouble n = n := by
  simp only [roundDouble, if_pos h]

lemma roundDouble_large_facts (n : Nat) (h : ¬ n < 2 ^ 53) :
    1 ≤ bitLen n - 53 ∧
    2 ^ 52 ≤ n / 2 ^ (bitLen n - 53) ∧ n / 2 ^ (bitLen n - 53) < 2 ^ 53 := by
  have hn1 : 1 ≤ n := by
    have : (0 : Nat) < 2 ^ 53 := Nat.pow_pos (by norm_num)
    omega
  obtain ⟨hlo, hhi⟩ := bitLen_spec n hn1
  have h53 : 2 ^ 53 ≤ n := by omega
  have hb54 : 54 ≤ bitLen n := by
    by_contra hb
    have : bitLen n ≤ 53 := by omega
    have : (2 : Nat) ^ bitLen n ≤ 2 ^ 53 :=
      Nat.pow_le_pow_right (by norm_num) this
    omega
  set k := bitLen n - 53 with hk
  have hkb : bitLen n = k + 53 := by omega
  have hkpos : (0 : Nat) < 2 ^ k := Nat.pow_pos (by norm_num)
  refine ⟨by omega, ?_, ?_⟩
  · rw [Nat.le_div_iff_mul_le hkpos, ← pow_add]
    have : 52 + k = bitLen n - 1 := by omega
    rw [this]
    exact hlo
  · rw [Nat.div_lt_iff_lt_mul hkpos, ← pow_add]
    have : 53 + k = bitLen n := by omega
    rw [this]
    exact hhi

lemma roundDouble_fixed (q k : Nat) (h1 : 2 ^ 52 ≤ q) (h2 : q < 2 ^ 53)
    (hk : 1 ≤ k) : roundDouble (q * 2 ^ k) = q * 2 ^ k := by
  have hkpos : (0 : Nat) < 2 ^ k := Nat.pow_pos (by norm_num)
  have hlo : 2 ^ (k + 52) ≤ q * 2 ^ k := by
    rw [pow_add, Nat.mul_comm (2 ^ k)]
    exact Nat.mul_le_mul_right _ h1
  have hhi : q * 2 ^ k < 2 ^ (k + 53) := by
    rw [pow_add, Nat.mul_comm (2 ^ k)]
    exact (Nat.mul_lt_mul_right hkpos).mpr h2
  have hnotsmall : ¬ q * 2 ^ k < 2 ^ 53 := by
    have : (2 : Nat) ^ 53 ≤ 2 ^ (k + 52) :=
      Nat.pow_le_pow_right (by norm_num) (by omega)
    omega
  have hbl : bitLen (q * 2 ^ k) = k + 53 := by
    have := bitLen_eq (k + 52) (q * 2 ^ k) hlo (by
      have : k + 52 + 1 = k + 53 := by omega
      rw [this]; exact hhi)
    omega
  simp only [roundDouble, if_neg hnotsmall, hbl]
  have hks : k + 53 - 53 = k := by omega
  rw [hks]
  have hmod : q * 2 ^ k % 2 ^ k = 0 := Nat.mul_mod_left _ _
  have hdiv : q * 2 ^ k / 2 ^ k = q := Nat.mul_div_cancel _ hkpos
  rw [hmod, hdiv]
  have hpos : (0 : Nat) < 2 ^ (k - 1) := Nat.pow_pos (by norm_num)
  rw [if_pos hpos]

lemma roundDouble_fixed_pow (j : Nat) (hj : 53 ≤ j) :
    roundDouble (2 ^ j) = 2 ^ j := by
  have : 2 ^ j = 2 ^ 52 * 2 ^ (j - 52) := by
    rw [← pow_add]
    congr 1
    omega
  rw [this]
  exact roundDouble_fixed (2 ^ 52) (j - 52) le_rfl (by norm_num) (by omega)

lemma roundDouble_idem (n : Nat) :
    roundDouble (roundDouble n) = roundDouble n := by
  by_cases h : n < 2 ^ 53
  · rw [roundDouble_small n h, roundDouble_small n h]
  · obtain ⟨hk1, hq1, hq2⟩ := roundDouble_large_facts n h
    have hval : roundDouble n =
        (if n % 2 ^ (bitLen n - 53) < 2 ^ (bitLen n - 53 - 1) then
          n / 2 ^ (bitLen n - 53)
         else if 2 ^ (bitLen n - 53 - 1) < n % 2 ^ (bitLen n - 53) then
          n / 2 ^ (bitLen n - 53) + 1
         else if n / 2 ^ (bitLen n - 53) % 2 = 0 then n / 2 ^ (bitLen n - 53)
         else n / 2 ^ (bitLen n - 53) + 1) * 2 ^ (bitLen n - 53) := by
      simp only [roundDouble, if_neg h]
    set k := bitLen n - 53 with hk
    set q := n / 2 ^ k with hq
    set q' := (if n % 2 ^ k < 2 ^ (k - 1) then q
         else if 2 ^ (k - 1) < n % 2 ^ k then q + 1
         else if q % 2 = 0 then q else q + 1) with hq'
    have hq'range : q ≤ q' ∧ q' ≤ q + 1 := by
      rw [hq']
      split_ifs <;> omega
    rw [hval]
    rcases Nat.lt_or_ge q' (2 ^ 53) with hc | hc
    · exact roundDouble_fixed q' k (by omega) hc hk1
    · have hq'eq : q' = 2 ^ 53 := by omega
      rw [hq'eq, ← pow_add]
      exact roundDouble_fixed_pow (53 + k) (by omega)

lemma roundDouble_pos (n : Nat) (h : 1 ≤ n) : 1 ≤ roundDouble n := by
  by_cases hs : n < 2 ^ 53
  · rw [roundDouble_small n hs]; exact h
  · obtain ⟨hk1, hq1, hq2⟩ := roundDouble_large_facts n hs
    simp only [roundDouble, if_neg hs]
    have h2 : (0 : Nat) < 2 ^ (bitLen n - 53) := Nat.pow_pos (by norm_num)
    have : 1 * 1 ≤
        (if n % 2 ^ (bitLen n - 53) < 2 ^ (bitLen n - 53 - 1) then
          n / 2 ^ (bitLen n - 53)
         else if 2 ^ (bitLen n - 53 - 1) < n % 2 ^ (bitLen n - 53) then
          n / 2 ^ (bitLen n - 53) + 1
         else if n / 2 ^ (bitLen n - 53) % 2 = 0 then n / 2 ^ (bitLen n - 53)
         else n / 2 ^ (bitLen n - 53) + 1) * 2 ^ (bitLen n - 53) := by
      apply Nat.mul_le_mul
      · have : (1 : Nat) ≤ 2 ^ 52 := Nat.one_le_two_pow
        split_ifs <;> omega
      · omega
    omega

lemma jsParseDigits_small (cs : List Char) (h : digitsVal cs < 2 ^ 53) :
    jsParseDigits cs = digitsVal cs := by
  simp only [jsParseDigits, roundDouble_small _ h]

/-! Lemmas about decimal rendering, used for the parse/format round
trip. -/

lemma digitChar10_toNat : ∀ k, k < 10 → (digitChar10 k).toNat = 48 + k := by
  decide

lemma natDigitsAux_zero (fuel : Nat) : natDigitsAux fuel 0 = [] := by
  cases fuel <;> simp [natDigitsAux]

lemma natDigitsAux_mem_bounds :
    ∀ fuel n c, c ∈ natDigitsAux fuel n → 48 ≤ c.toNat ∧ c.toNat ≤ 57 := by
  intro fuel
  induction fuel with
  | zero => intro n c hc; simp [natDigitsAux] at hc
  | succ f ih =>
    intro n c hc
    by_cases hn : n = 0
    · subst hn; simp [natDigitsAux] at hc
    · simp only [natDigitsAux, if_neg hn, List.mem_append,
        List.mem_singleton] at hc
      rcases hc with hc | hc
      · exact ih (n / 10) c hc
      · have hm : n % 10 < 10 := Nat.mod_lt _ (by norm_num)
        rw [hc, digitChar10_toNat _ hm]
        omega

lemma natDigitsAux_foldl :
    ∀ fuel n a, n ≤ fuel →
      List.foldl (fun a c => a * 10 + (c.toNat - 48)) a (natDigitsAux fuel n) =
        a * 10 ^ (natDigitsAux fuel n).length + n := by
  intro fuel
  induction fuel with
  | zero =>
    intro n a hn
    have : n = 0 := by omega
    subst this
    simp [natDigitsAux]
  | succ f ih =>
    intro n a hn
    by_cases h0 : n = 0
    · subst h0; simp [natDigitsAux]
    · have hlt : n / 10 < n := Nat.div_lt_self (by omega) (by norm_num)
      have hle : n / 10 ≤ f := by omega
      simp only [natDigitsAux, if_neg h0, List.foldl_append, List.foldl_cons,
        List.foldl_nil, List.length_append, List.length_cons, List.length_nil]
      rw [ih (n / 10) a hle]
      rw [digitChar10_toNat _ (Nat.mod_lt _ (by norm_num))]
      have hmod := Nat.div_add_mod n 10
      have hpow : 10 ^ ((natDigitsAux f (n / 10)).length + 1) =
          10 ^ (natDigitsAux f (n / 10)).length * 10 := pow_succ 10 _
      rw [hpow]
      ring_nf
      omega

lemma natDigitsAux_head :
    ∀ fuel n, 1 ≤ n → n ≤ fuel →
      ∃ c cs, natDigitsAux fuel n = c :: cs ∧ 49 ≤ c.toNat ∧ c.toNat ≤ 57 := by
  intro fuel
  induction fuel with
  | zero => intro n h1 h2; omega
  | succ f ih =>
    intro n h1 h2
    have h0 : n ≠ 0 := by omega
    by_cases hsmall : n < 10
    · have hdiv : n / 10 = 0 := Nat.div_eq_of_lt hsmall
      have hmod : n % 10 = n := Nat.mod_eq_of_lt hsmall
      refine ⟨digitChar10 n, [], ?_, ?_, ?_⟩
      · simp [natDigitsAux, if_neg h0, hdiv, hmod, natDigitsAux_zero]
      · rw [digitChar10_toNat _ (by omega)]; omega
      · rw [digitChar10_toNat _ (by omega)]; omega
    · have hd1 : 1 ≤ n / 10 := by
        rw [Nat.one_le_div_iff (by norm_num)]; omega
      have hd2 : n / 10 ≤ f := by
        have := Nat.div_lt_self (by omega : 0 < n) (by norm_num : 1 < 10)
        omega
      obtain ⟨c, cs, heq, hb1, hb2⟩ := ih (n / 10) hd1 hd2
      refine ⟨c, cs ++ [digitChar10 (n % 10)], ?_, hb1, hb2⟩
      simp [natDigitsAux, if_neg h0, heq]

lemma natToString_data (n : Nat) (h : n ≠ 0) (h2 : n < 10 ^ 21) :
    (natToString n).data = natDigitsAux n n := by
  have h2' : n < 1000000000000000000000 := by
    have he : (10 : Nat) ^ 21 = 1000000000000000000000 := by norm_num
    omega
  simp [natToString, if_neg h, if_pos h2']

lemma natToString_spec (n : Nat) (h1 : 1 ≤ n) (h2 : n < 10 ^ 21) :
    regexYearTest (natToString n) = true ∧
    digitsVal (natToString n).data = n ∧
    '-' ∉ (natToString n).data ∧
    (natToString n).data ≠ [] := by
  have h0 : n ≠ 0 := by omega
  have hdata := natToString_data n h0 h2
  obtain ⟨c, cs, heq, hb1, hb2⟩ := natDigitsAux_head n n h1 le_rfl
  have hbounds : ∀ x ∈ (natToString n).data, 48 ≤ x.toNat ∧ x.toNat ≤ 57 := by
    intro x hx
    exact natDigitsAux_mem_bounds n n x (hdata ▸ hx)
  refine ⟨?_, ?_, ?_, ?_⟩
  · simp only [regexYearTest, hdata, heq, Bool.and_eq_true, decide_eq_true_eq,
      List.all_eq_true, isDigitChar]
    refine ⟨⟨hb1, hb2⟩, ?_⟩
    intro x hx
    have : x ∈ (natToString n).data := by
      rw [hdata, heq]; exact List.mem_cons_of_mem _ hx
    have hb := hbounds x this
    omega
  · simp only [digitsVal, hdata]
    rw [natDigitsAux_foldl n n 0 le_rfl]
    simp
  · intro hc
    have hb := hbounds _ hc
    have h45 : ('-').toNat = 45 := rfl
    omega
  · rw [hdata, heq]; simp

lemma pad2_month_spec :
    ∀ m, m < 13 → 1 ≤ m →
      regexMonthTest (pad2 m) = true ∧ jsParseDigits (pad2 m).data = m ∧
      '-' ∉ (pad2 m).data ∧ (pad2 m).data ≠ [] := by decide

lemma pad2_day_spec :
    ∀ d, d < 32 → 1 ≤ d →
      regexDayTest (pad2 d) = true ∧ jsParseDigits (pad2 d).data = d ∧
      '-' ∉ (pad2 d).data ∧ (pad2 d).data ≠ [] := by decide

/-! Lemmas about the embedded JavaScript split. -/

lemma jsSplitAux_no_sep :
    ∀ (sep : Char) (xs acc : List Char), sep ∉ xs →
      jsSplitAux sep xs acc = [⟨acc.reverse ++ xs⟩] := by
  intro sep xs
  induction xs with
  | nil => intro acc h; simp [jsSplitAux]
  | cons c cs ih =>
    intro acc h
    have hc : ¬(c = sep) := fun e => h (by rw [e]; exact List.mem_cons_self _ _)
    simp only [jsSplitAux, if_neg hc]
    rw [ih (c :: acc) (fun hm => h (List.mem_cons_of_mem _ hm))]
    congr 1
    simp

lemma jsSplitAux_sep :
    ∀ (sep : Char) (xs ys acc : List Char), sep ∉ xs →
      jsSplitAux sep (xs ++ sep :: ys) acc =
        ⟨acc.reverse ++ xs⟩ :: jsSplitAux sep ys [] := by
  intro sep xs
  induction xs with
  | nil => intro ys acc h; simp [jsSplitAux]
  | cons c cs ih =>
    intro ys acc h
    have hc : ¬(c = sep) := fun e => h (by rw [e]; exact List.mem_cons_self _ _)
    simp only [List.cons_append, jsSplitAux, if_neg hc, List.append_eq]
    rw [ih ys (c :: acc) (fun hm => h (List.mem_cons_of_mem _ hm))]
    congr 2
    simp

lemma beq_empty_false (s : String) (h : s.data ≠ []) : (s == "") = false := by
  rw [beq_eq_false_iff_ne]
  intro e
  subst e
  exact h rfl

lemma mk_bne_empty (l : List Char) (h : l ≠ []) :
    ((⟨l⟩ : String) != "") = true := by
  have hb : ((⟨l⟩ : String) == "") = false := beq_empty_false ⟨l⟩ h
  simp [bne, hb]

/-! Evaluation of `parseDate` on strings of known shape. -/

lemma parseDate_data_one (s : String) (hne : s.data ≠ [])
    (hnd : '-' ∉ s.data) (hy : regexYearTest s = true) :
    parseDate s true = some { year := jsParseDigits s.data,
                              month := none, day := none } := by
  unfold parseDate
  simp only [beq_empty_false s hne, Bool.false_eq_true, if_false]
  have heta : (⟨s.data⟩ : String) = s := rfl
  have hsplit : jsSplit '-' s = [s] := by
    unfold jsSplit
    rw [jsSplitAux_no_sep '-' s.data [] hnd]
    simp [heta]
  rw [hsplit]
  show parseDateParts s none none true =
    some { year := jsParseDigits s.data, month := none, day := none }
  unfold parseDateParts
  rw [hy]
  simp [optPartOk, strTruthy, optPartNum, isDateValid_jsParseInt]

lemma parseDate_data_two (s : String) (A B : List Char)
    (hs : s.data = A ++ '-' :: B) (hA : '-' ∉ A) (hB : '-' ∉ B)
    (hy : regexYearTest ⟨A⟩ = true) (hBne : B ≠ [])
    (hm : regexMonthTest ⟨B⟩ = true) :
    parseDate s true = some { year := jsParseDigits A,
                              month := some (jsParseDigits B), day := none } := by
  have hne : s.data ≠ [] := by rw [hs]; simp
  unfold parseDate
  simp only [beq_empty_false s hne, Bool.false_eq_true, if_false]
  have hsplit : jsSplit '-' s = [⟨A⟩, ⟨B⟩] := by
    unfold jsSplit
    rw [hs, jsSplitAux_sep '-' A B [] hA, jsSplitAux_no_sep '-' B [] hB]
    simp
  rw [hsplit]
  show parseDateParts ⟨A⟩ (some ⟨B⟩) none true =
    some { year := jsParseDigits A, month := some (jsParseDigits B), day := none }
  unfold parseDateParts
  rw [hy]
  simp [optPartOk, strTruthy, optPartNum, isDateValid_jsParseInt, hm,
    mk_bne_empty B hBne]

lemma parseDate_data_three (s : String) (A B C : List Char)
    (hs : s.data = A ++ '-' :: (B ++ '-' :: C)) (hA : '-' ∉ A)
    (hB : '-' ∉ B) (hC : '-' ∉ C)
    (hy : regexYearTest ⟨A⟩ = true) (hBne : B ≠ [])
    (hm : regexMonthTest ⟨B⟩ = true) (hCne : C ≠ [])
    (hd : regexDayTest ⟨C⟩ = true) :
    parseDate s true = some { year := jsParseDigits A,
                              month := some (jsParseDigits B),
                              day := some (jsParseDigits C) } := by
  have hne : s.data ≠ [] := by rw [hs]; simp
  unfold parseDate
  simp only [beq_empty_false s hne, Bool.false_eq_true, if_false]
  have hsplit : jsSplit '-' s = [⟨A⟩, ⟨B⟩, ⟨C⟩] := by
    unfold jsSplit
    rw [hs, jsSplitAux_sep '-' A (B ++ '-' :: C) [] hA,
      jsSplitAux_sep '-' B C [] hB, jsSplitAux_no_sep '-' C [] hC]
    simp
  rw [hsplit]
  show parseDateParts ⟨A⟩ (some ⟨B⟩) (some ⟨C⟩) true =
    some { year := jsParseDigits A, month := some (jsParseDigits B),
           day := some (jsParseDigits C) }
  unfold parseDateParts
  rw [hy]
  simp [optPartOk, strTruthy, optPartNum, isDateValid_jsParseInt, hm, hd,
    mk_bne_empty B hBne, mk_bne_empty C hCne]

/-! Numeric bounds implied by the pattern tests. -/

lemma foldl_digits_ge (cs : List Char) :
    ∀ a : Nat, 1 ≤ a →
      1 ≤ List.foldl (fun a c => a * 10 + (c.toNat - 48)) a cs := by
  induction cs with
  | nil => intro a h; simpa
  | cons c cs ih =>
    intro a h
    simp only [List.foldl_cons]
    exact ih _ (by omega)

lemma regexYearTest_val (s : String) (h : regexYearTest s = true) :
    1 ≤ digitsVal s.data := by
  rcases hd : s.data with _ | ⟨c, cs⟩
  · simp only [regexYearTest, hd] at h
    exact absurd h (by decide)
  · simp only [regexYearTest, hd, Bool.and_eq_true, decide_eq_true_eq] at h
    simp only [digitsVal, hd, List.foldl_cons]
    exact foldl_digits_ge cs _ (by omega)

lemma regexMonthTest_val (s : String) (h : regexMonthTest s = true) :
    1 ≤ digitsVal s.data ∧ digitsVal s.data ≤ 12 := by
  rcases hd : s.data with _ | ⟨c₁, _ | ⟨c₂, _ | ⟨c₃, rest⟩⟩⟩
  · simp only [regexMonthTest, hd] at h
    exact absurd h (by decide)
  · simp only [regexMonthTest, hd, Bool.and_eq_true, decide_eq_true_eq] at h
    simp only [digitsVal, hd, List.foldl_cons, List.foldl_nil]
    omega
  · simp only [regexMonthTest, hd, Bool.or_eq_true, Bool.and_eq_true,
      beq_iff_eq, decide_eq_true_eq] at h
    simp only [digitsVal, hd, List.foldl_cons, List.foldl_nil]
    omega
  · simp only [regexMonthTest, hd] at h
    exact absurd h (by decide)

lemma regexDayTest_val (s : String) (h : regexDayTest s = true) :
    1 ≤ digitsVal s.data ∧ digitsVal s.data ≤ 31 := by
  rcases hd : s.data with _ | ⟨c₁, _ | ⟨c₂, _ | ⟨c₃, rest⟩⟩⟩
  · simp only [regexDayTest, hd] at h
    exact absurd h (by decide)
  · simp only [regexDayTest, hd, Bool.and_eq_true, decide_eq_true_eq] at h
    simp only [digitsVal, hd, List.foldl_cons, List.foldl_nil]
    omega
  · simp only [regexDayTest, hd, Bool.or_eq_true, Bool.and_eq_true,
      beq_iff_eq, decide_eq_true_eq, isDigitChar] at h
    simp only [digitsVal, hd, List.foldl_cons, List.foldl_nil]
    omega
  · simp only [regexDayTest, hd] at h
    exact absurd h (by decide)

/-! Shape of every record a successful parse can produce. -/

lemma parseDateParts_shape (y : String) (mo dy : Option String) (v : Bool)
    (d : PartialDate) (h : parseDateParts y mo dy v = some d) :
    1 ≤ d.year ∧ roundDouble d.year = d.year ∧
    (∀ m, d.month = some m → 1 ≤ m ∧ m ≤ 12) ∧
    (∀ dd, d.day = some dd → 1 ≤ dd ∧ dd ≤ 31) ∧
    (d.month = none → d.day = none) := by
  unfold parseDateParts at h
  split at h
  case isFalse => exact absurd h (by simp)
  case isTrue hg =>
    split at h
    case isFalse => exact absurd h (by simp)
    case isTrue hv =>
      simp only [Bool.and_eq_true] at hg
      obtain ⟨⟨hyg, hmg⟩, hdg⟩ := hg
      have hd := Option.some.inj h
      subst hd
      refine ⟨?_, ?_, ?_, ?_, ?_⟩
      · show 1 ≤ jsParseDigits y.data
        exact roundDouble_pos _ (regexYearTest_val y hyg)
      · show roundDouble (jsParseDigits y.data) = jsParseDigits y.data
        exact roundDouble_idem _
      · intro m hm
        simp only at hm
        cases mo with
        | none => simp [optPartNum] at hm
        | some ms =>
          simp only [optPartNum] at hm
          split at hm
          case isTrue hst =>
            have hms := Option.some.inj hm
            simp only [optPartOk, strTruthy, hst] at hmg
            simp only [Bool.not_true, Bool.false_or] at hmg
            have hb := regexMonthTest_val ms hmg
            have hsmall : digitsVal ms.data < 2 ^ 53 :=
              lt_of_le_of_lt hb.2 (by norm_num)
            have he := jsParseDigits_small ms.data hsmall
            omega
          case isFalse => exact absurd hm (by simp)
      · intro dd hdd
        simp only at hdd
        split at hdd
        case isFalse => exact absurd hdd (by simp)
        case isTrue hst =>
          cases dy with
          | none => simp [optPartNum] at hdd
          | some ds =>
            simp only [optPartNum] at hdd
            split at hdd
            case isTrue hst2 =>
              have hds := Option.some.inj hdd
              simp only [optPartOk, strTruthy, hst2] at hdg
              simp only [Bool.not_true, Bool.false_or] at hdg
              have hb := regexDayTest_val ds hdg
              have hsmall : digitsVal ds.data < 2 ^ 53 :=
                lt_of_le_of_lt hb.2 (by norm_num)
              have he := jsParseDigits_small ds.data hsmall
              omega
            case isFalse => exact absurd hdd (by simp)
      · intro hmn
        simp only at hmn ⊢
        cases mo with
        | none => simp [strTruthy]
        | some ms =>
          by_cases hst : strTruthy (some ms) = true
          · simp only [strTruthy] at hst
            simp [optPartNum, hst] at hmn
          · simp [hst]

lemma parseDate_shape (s : String) (v : Bool) (d : PartialDate)
    (h : parseDate s v = some d) :
    1 ≤ d.year ∧ roundDouble d.year = d.year ∧
    (∀ m, d.month = some m → 1 ≤ m ∧ m ≤ 12) ∧
    (∀ dd, d.day = some dd → 1 ≤ dd ∧ dd ≤ 31) ∧
    (d.month = none → d.day = none) := by
  unfold parseDate at h
  split at h
  · exact absurd h (by simp)
  · split at h
    · exact parseDateParts_shape _ _ _ _ _ h
    · exact parseDateParts_shape _ _ _ _ _ h
    · exact parseDateParts_shape _ _ _ _ _ h
    · exact absurd h (by simp)

/-! Re-parsing the formatted string recovers the record. -/

lemma getDateString_parse (d : PartialDate) (hy : 1 ≤ d.year)
    (hfix : roundDouble d.year = d.year) (hlt : d.year < 10 ^ 21)
    (hm : ∀ m, d.month = some m → 1 ≤ m ∧ m ≤ 12)
    (hdb : ∀ dd, d.day = some dd → 1 ≤ dd ∧ dd ≤ 31)
    (hmd : d.month = none → d.day = none) :
    parseDate (getDateString (some d)) true = some d := by
  obtain ⟨y, mo, dy⟩ := d
  simp only at hy hfix hlt hm hdb hmd
  have hy0 : y ≠ 0 := by omega
  obtain ⟨hyT, hyV0, hyD, hyNE⟩ := natToString_spec y hy hlt
  have hyV : jsParseDigits (natToString y).data = y := by
    simp only [jsParseDigits, hyV0]
    exact hfix
  cases mo with
  | none =>
    have hdy : dy = none := hmd rfl
    subst hdy
    have hstr : getDateString (some ⟨y, none, none⟩) = natToString y := by
      simp [getDateString, getDateCompString, numTruthy, hy0]
    rw [hstr, parseDate_data_one (natToString y) hyNE hyD hyT, hyV]
  | some m =>
    obtain ⟨hm1, hm2⟩ := hm m rfl
    have hmT : (m != 0) = true := by
      simp only [bne_iff_ne, ne_eq, decide_eq_true_eq]; omega
    obtain ⟨hmR, hmV, hmD, hmNE⟩ := pad2_month_spec m (by omega) hm1
    cases dy with
    | none =>
      have hs : (getDateString (some ⟨y, some m, none⟩)).data =
          (natToString y).data ++ '-' :: (pad2 m).data := by
        simp [getDateString, getDateCompString, numTruthy, hy0, hmT,
          String.data_append]
      rw [parseDate_data_two _ _ _ hs hyD hmD hyT hmNE hmR, hyV, hmV]
    | some dd =>
      obtain ⟨hd1, hd2⟩ := hdb dd rfl
      have hdT : (dd != 0) = true := by
        simp only [bne_iff_ne, ne_eq, decide_eq_true_eq]; omega
      obtain ⟨hdR, hdV, hdD, hdNE⟩ := pad2_day_spec dd (by omega) hd1
      have hs : (getDateString (some ⟨y, some m, some dd⟩)).data =
          (natToString y).data ++ '-' :: ((pad2 m).data ++ '-' :: (pad2 dd).data) := by
        simp [getDateString, getDateCompString, numTruthy, hy0, hmT, hdT,
          String.data_append]
      rw [parseDate_data_three _ _ _ _ hs hyD hmD hdD hyT hmNE hmR hdNE hdR,
        hyV, hmV, hdV]

/-- C3 counterexample: the round trip fails as originally claimed.  The
22-digit string `"1000000000000000000000"` parses successfully (its value
`10 ^ 21` is exactly representable as a double, and validation is inert),
but `Number.prototype.toString` renders a year of `10 ^ 21` in exponential
notation, `"1e+21"`, which the year pattern rejects on re-parse. -/
theorem parseDate_roundtrip_fails_at_ten_pow_21 :
    parseDate "1000000000000000000000" true =
      some { year := 10 ^ 21, month := none, day := none } ∧
    getDateString (some { year := 10 ^ 21, month := none, day := none }) =
      "1e+21" ∧
    parseDate
        (getDateString (some { year := 10 ^ 21, month := none, day := none }))
        true = none :=
  ⟨by decide, by decide, by decide⟩

/-- C3, amended: the formatter is a left inverse of the parser for records
whose year is below `10 ^ 21` (the ECMA-262 threshold at which
`Number.prototype.toString` switches to exponential notation): every such
record produced by a successful `parseDate` call re-parses from its
formatted string to an equal record (same components present, same
values). -/
theorem parseDate_getDateString_roundtrip (s : String) (v : Bool)
    (d : PartialDate) (h : parseDate s v = some d)
    (hlt : d.year < 10 ^ 21) :
    parseDate (getDateString (some d)) true = some d := by
  obtain ⟨h1, hfix, h2, h3, h4⟩ := parseDate_shape s v d h
  exact getDateString_parse d h1 hfix hlt h2 h3 h4

/-- C3 witness: the round trip applied to the parse of "2020-02-29". -/
theorem parseDate_getDateString_roundtrip_witness :
    parseDate
        (getDateString (some { year := 2020, month := some 2, day := some 29 }))
        true =
      some { year := 2020, month := some 2, day := some 29 } :=
  parseDate_getDateString_roundtrip "2020-02-29" true
    { year := 2020, month := some 2, day := some 29 } (by decide) (by decide)

end Bookcat
